import Mathlib

/-!
Shallow embedding of `src/database.py` (class `LibraryDatabase`), a single-table
SQLite store of book records, together with proofs about its operations.

The SQLite table `books` is modelled as a list of rows plus the AUTOINCREMENT
sequence counter.  Columns: `id INTEGER PRIMARY KEY AUTOINCREMENT`,
`title TEXT NOT NULL`, `author TEXT NOT NULL`, `genre TEXT`, `description TEXT`,
`available INTEGER DEFAULT 1`.  Nullable TEXT columns become `Option String`;
`available` is an arbitrary `Int` (SQLite imposes no 0/1 constraint).
`SELECT *` without ORDER BY returns rows in rowid order, i.e. list order here,
since inserts append with strictly increasing ids.
-/

namespace LibraryDb

/-- ASCII-only lowercase folding, exactly the case folding SQLite's `LIKE`
applies by default (and the folding relevant to the spec's search examples). -/
def lowerChar (c : Char) : Char :=
  if 'A' ≤ c ∧ c ≤ 'Z' then Char.ofNat (c.toNat + 32) else c

/-- All suffixes of a list, longest first (the list itself down to `[]`). -/
def allSuffixes : List Char → List (List Char)
  | [] => [[]]
  | c :: cs => (c :: cs) :: allSuffixes cs

/-- SQLite `LIKE` pattern matching on lists of characters: `%` matches any
sequence of characters, `_` matches exactly one character, and ordinary
characters compare after ASCII case folding.  This is the matching semantics
the `cursor.execute("... LIKE ?")` in `search_books` delegates to. -/
def likeMatch : List Char → List Char → Bool
  | [], s => s.isEmpty
  | p :: ps, s =>
    if p = '%' then (allSuffixes s).any (likeMatch ps)
    else
      match s with
      | [] => false
      | c :: cs => (if p = '_' then true else lowerChar p == lowerChar c) && likeMatch ps cs

/-- The pattern `search_books` builds: `f"%{search_term}%"`. -/
def likePattern (term : String) : List Char :=
  '%' :: (term.data ++ ['%'])

/-- Boolean prefix test by character equality (on already-folded lists). -/
def isPrefixCheck : List Char → List Char → Bool
  | [], _ => true
  | _ :: _, [] => false
  | p :: ps, c :: cs => (p == c) && isPrefixCheck ps cs

/-- Boolean substring test: `pat` occurs contiguously inside `hay`. -/
def containsSub : List Char → List Char → Bool
  | [], pat => pat.isEmpty
  | h :: t, pat => isPrefixCheck pat (h :: t) || containsSub t pat

def toLowerList (s : String) : List Char :=
  s.data.map lowerChar

/-- A character list free of the LIKE wildcards `%` and `_`. -/
def noWild (l : List Char) : Bool :=
  l.all (fun c => !(c == '%') && !(c == '_'))

/-- Case-insensitive prefix test: the first list is a prefix of the second
after ASCII case folding on both sides. -/
def ciPrefix : List Char → List Char → Bool
  | [], _ => true
  | _ :: _, [] => false
  | p :: ps, c :: cs => (lowerChar p == lowerChar c) && ciPrefix ps cs

/-- Modelled from the spec's words for `search`: "case-insensitive substring
match" of the term against a field.  Used to compare the source's `LIKE`-based
search against the spec's description. -/
def specMatch (term field : String) : Bool :=
  containsSub (toLowerList field) (toLowerList term)

/-- One row of the `books` table. -/
structure Book where
  id : Nat
  title : String
  author : String
  genre : Option String
  descr : Option String
  available : Int
deriving Repr, DecidableEq, Inhabited

/-- The persistent store: the rows of the `books` table in rowid order, and the
AUTOINCREMENT sequence value (the next id to assign; SQLite never reuses ids
after deletion). -/
structure Store where
  rows : List Book
  nextId : Nat
deriving Repr, DecidableEq

/-- The store right after `create_table` on a fresh database file: no rows,
first AUTOINCREMENT id is 1. -/
def emptyStore : Store := ⟨[], 1⟩

/-- `add_book(title, author, genre, description, available)`: INSERT a new row,
return the store and `cursor.lastrowid`. -/
def add_book (s : Store) (title author : String) (genre descr : Option String)
    (available : Int) : Store × Nat :=
  (⟨s.rows ++ [⟨s.nextId, title, author, genre, descr, available⟩], s.nextId + 1⟩,
   s.nextId)

/-- `get_all_books()`: SELECT * FROM books. -/
def get_all_books (s : Store) : List Book :=
  s.rows

/-- `get_book_by_id(book_id)`: SELECT * WHERE id = ?, `fetchone()` — the first
matching row, or `None`. -/
def get_book_by_id (s : Store) (book_id : Nat) : Option Book :=
  s.rows.find? (fun b => b.id == book_id)

/-- `search_books(search_term)`: SELECT * WHERE title LIKE pat OR author LIKE
pat, with pat = `f"%{search_term}%"`. -/
def search_books (s : Store) (term : String) : List Book :=
  s.rows.filter (fun b =>
    likeMatch (likePattern term) b.title.data || likeMatch (likePattern term) b.author.data)

/-- `update_availability(book_id, available)`: UPDATE the `available` column of
every row matching the id; returns `rowcount > 0`. -/
def update_availability (s : Store) (book_id : Nat) (available : Int) : Store × Bool :=
  (⟨s.rows.map (fun b => if b.id == book_id then { b with available := available } else b),
    s.nextId⟩,
   s.rows.any (fun b => b.id == book_id))

/-- `borrow_book(book_id)`: read the row; `False` if absent, `False` if its
`available` column (`book[5]`) equals 0, else write availability 0. -/
def borrow_book (s : Store) (book_id : Nat) : Store × Bool :=
  match get_book_by_id s book_id with
  | none => (s, false)
  | some b =>
    if b.available == 0 then (s, false)
    else update_availability s book_id 0

/-- `return_book(book_id)`: unconditionally `update_availability(book_id, 1)`. -/
def return_book (s : Store) (book_id : Nat) : Store × Bool :=
  update_availability s book_id 1

/-- The effect on one row of the SET clause `update_book` builds: each column
whose parameter is not `None` is overwritten, rows with a different id are
untouched by the WHERE clause. -/
def applyFields (book_id : Nat) (title author genre descr : Option String)
    (available : Option Int) (b : Book) : Book :=
  if b.id == book_id then
    { b with
      title := title.getD b.title
      author := author.getD b.author
      genre := match genre with | some g => some g | none => b.genre
      descr := match descr with | some d => some d | none => b.descr
      available := available.getD b.available }
  else b

/-- `update_book(book_id, title=None, author=None, genre=None,
description=None, available=None)`: dynamically built partial UPDATE.  A
parameter equal to Python `None` (here `none`) is skipped; with no fields the
function returns `False` before touching the database, otherwise it runs the
UPDATE and returns `True` regardless of `rowcount`. -/
def update_book (s : Store) (book_id : Nat) (title author genre descr : Option String)
    (available : Option Int) : Store × Bool :=
  if title.isSome || author.isSome || genre.isSome || descr.isSome || available.isSome then
    (⟨s.rows.map (applyFields book_id title author genre descr available), s.nextId⟩, true)
  else
    (s, false)

/-- `delete_book(book_id)`: DELETE WHERE id = ?; returns `rowcount > 0`. -/
def delete_book (s : Store) (book_id : Nat) : Store × Bool :=
  (⟨s.rows.filter (fun b => !(b.id == book_id)), s.nextId⟩,
   s.rows.any (fun b => b.id == book_id))

/-- Python call-binding for `add_book`: the signature
`add_book(self, title, author, genre, description, available=1)` gives
defaults to `available` only — `genre` and `description` are required
positional parameters despite the docstring calling them optional.  An
argument's outer `Option` records whether the caller supplied it; a call
missing a required parameter raises `TypeError`, modelled as `none`. -/
def add_book_call (s : Store) (title? author? : Option String)
    (genre? descr? : Option (Option String)) (available? : Option Int) :
    Option (Store × Nat) :=
  match title?, author?, genre?, descr? with
  | some t, some a, some g, some d => some (add_book s t a g d (available?.getD 1))
  | _, _, _, _ => none

/-- Python binding of one optional keyword argument of `update_book`: the outer
`Option` is "did the caller supply it", the inner value is what was passed
(possibly `None`).  An omitted argument binds to its default `None`. -/
def pyBind (x : Option (Option α)) : Option α :=
  match x with
  | none => none
  | some v => v

/-- Python call-binding for `update_book`: each keyword argument may be
omitted (outer `none`) or supplied with a value that may itself be `None`. -/
def update_book_call (s : Store) (book_id : Nat)
    (title? author? genre? descr? : Option (Option String))
    (available? : Option (Option Int)) : Store × Bool :=
  update_book s book_id (pyBind title?) (pyBind author?) (pyBind genre?) (pyBind descr?)
    (pyBind available?)

/-- The store-mutating operations reachable through the public API, with the
arguments each one takes in the source. -/
inductive Op where
  | add (title author : String) (genre descr : Option String) (available : Int)
  | upd (id : Nat) (title author genre descr : Option String) (available : Option Int)
  | setAv (id : Nat) (available : Int)
  | bor (id : Nat)
  | ret (id : Nat)
  | del (id : Nat)
deriving Repr, DecidableEq

/-- Apply one operation to the store, discarding the returned value. -/
def applyOp (s : Store) : Op → Store
  | .add t a g d av => (add_book s t a g d av).1
  | .upd i t a g d av => (update_book s i t a g d av).1
  | .setAv i av => (update_availability s i av).1
  | .bor i => (borrow_book s i).1
  | .ret i => (return_book s i).1
  | .del i => (delete_book s i).1

/-- Run a sequence of operations from a starting store. -/
def run (s : Store) (ops : List Op) : Store :=
  ops.foldl applyOp s

/-- An integer is a well-formed availability flag: 0 or 1. -/
def isFlag (n : Int) : Bool :=
  n == 0 || n == 1

/-- An operation whose availability argument, when it has one, is a boolean
flag (0 or 1) — the type the spec gives that argument. -/
def validOp : Op → Bool
  | .add _ _ _ _ av => isFlag av
  | .upd _ _ _ _ _ av => match av with | none => true | some v => isFlag v
  | .setAv _ av => isFlag av
  | .bor _ => true
  | .ret _ => true
  | .del _ => true

/-- Every row's `available` column is exactly 0 or 1. -/
def availInv (s : Store) : Bool :=
  s.rows.all (fun b => isFlag b.available)

/-- The row at position `i` of the table, with a default row for out-of-range
positions (used to state positional frame properties). -/
def rowAt (s : Store) (i : Nat) : Book :=
  s.rows.getD i default

/-! ### Helper lemmas about the list operations the store model uses -/

theorem find_none_iff_any_false (p : Book → Bool) (l : List Book) :
    l.find? p = none ↔ l.any p = false := by
  induction l with
  | nil => simp
  | cons b t ih =>
    by_cases h : p b
    · simp [List.find?, h]
    · simp [List.find?, h, ih]

theorem find_some_any_true (p : Book → Bool) (l : List Book) (b : Book)
    (h : l.find? p = some b) : l.any p = true := by
  by_contra ha
  rw [Bool.not_eq_true] at ha
  rw [(find_none_iff_any_false p l).mpr ha] at h
  exact Option.noConfusion h

theorem find_map_setfields (l : List Book) (id : Nat) (f : Book → Book)
    (hf : ∀ b, (f b).id = b.id) :
    (l.map (fun b => if b.id == id then f b else b)).find? (fun b => b.id == id)
      = (l.find? (fun b => b.id == id)).map f := by
  induction l with
  | nil => simp
  | cons b t ih =>
    by_cases h : b.id == id
    · have hfb : ((f b).id == id) = true := by rw [hf b]; exact h
      rw [List.map_cons, if_pos h]
      simp only [List.find?, hfb, h]
      rfl
    · rw [List.map_cons, if_neg h]
      have hb : (b.id == id) = false := Bool.eq_false_iff.mpr h
      simp only [List.find?, hb]
      exact ih

theorem map_if_id (l : List Book) (id : Nat) (f : Book → Book)
    (h : l.any (fun b => b.id == id) = false) :
    l.map (fun b => if b.id == id then f b else b) = l := by
  induction l with
  | nil => simp
  | cons b t ih =>
    simp only [List.any_cons, Bool.or_eq_false_iff] at h
    have h1 : ¬((b.id == id) = true) := by rw [h.1]; exact Bool.false_ne_true
    rw [List.map_cons, if_neg h1, ih h.2]

theorem any_filter_not (p : Book → Bool) (l : List Book) :
    (l.filter (fun b => !(p b))).any p = false := by
  induction l with
  | nil => simp
  | cons b t ih =>
    by_cases h : p b
    · rw [List.filter_cons]
      simp only [h, Bool.not_true, Bool.false_eq_true, if_false]
      exact ih
    · have hf : p b = false := Bool.eq_false_iff.mpr h
      rw [List.filter_cons]
      simp only [hf, Bool.not_false, if_true, List.any_cons, hf, Bool.false_or]
      exact ih

theorem find_filter_not (p : Book → Bool) (l : List Book) :
    (l.filter (fun b => !(p b))).find? p = none :=
  (find_none_iff_any_false p _).mpr (any_filter_not p l)

/-! ### Claim theorems -/

theorem borrow_book_unavailable (s : Store) (id : Nat) (b : Book)
    (hb : get_book_by_id s id = some b) (h0 : b.available = 0) :
    borrow_book s id = (s, false) := by
  simp [borrow_book, hb, h0]

/-- C1: `borrow(id)` returns false when no row with that id exists; returns
false and leaves the store unchanged when the row exists but its available
flag is 0; and when the row exists with available flag 1 it sets that row's
available flag to 0 and returns true, so an immediate second `borrow(id)`
returns false. -/
theorem borrow_book_spec (s : Store) (id : Nat) :
    (get_book_by_id s id = none → borrow_book s id = (s, false)) ∧
    (∀ b, get_book_by_id s id = some b → b.available = 0 →
      borrow_book s id = (s, false)) ∧
    (∀ b, get_book_by_id s id = some b → b.available = 1 →
      (borrow_book s id).2 = true ∧
      get_book_by_id (borrow_book s id).1 id = some { b with available := 0 } ∧
      borrow_book (borrow_book s id).1 id = ((borrow_book s id).1, false)) := by
  refine ⟨fun h => by simp [borrow_book, h],
    fun b hb h0 => borrow_book_unavailable s id b hb h0,
    fun b hb h1 => ?_⟩
  have hbor : borrow_book s id = update_availability s id 0 := by
    simp [borrow_book, hb, h1]
  have hany : s.rows.any (fun b => b.id == id) = true :=
    find_some_any_true _ _ b hb
  have hget : get_book_by_id (update_availability s id 0).1 id
      = some { b with available := 0 } := by
    unfold get_book_by_id update_availability
    rw [find_map_setfields s.rows id (fun b => { b with available := 0 }) (fun _ => rfl)]
    unfold get_book_by_id at hb
    rw [hb]
    rfl
  have hget' : get_book_by_id (borrow_book s id).1 id = some { b with available := 0 } := by
    rw [hbor]; exact hget
  exact ⟨by rw [hbor]; exact hany, hget',
    borrow_book_unavailable (borrow_book s id).1 id { b with available := 0 } hget' rfl⟩

/-- C1 witness: borrowing a freshly added available book succeeds, flips the
flag, and a second borrow fails. -/
theorem borrow_book_spec_witness :
    (borrow_book (add_book emptyStore "The Hobbit" "J.R.R. Tolkien" none none 1).1 1).2
      = true ∧
    borrow_book
        (borrow_book (add_book emptyStore "The Hobbit" "J.R.R. Tolkien" none none 1).1 1).1 1
      = ((borrow_book (add_book emptyStore "The Hobbit" "J.R.R. Tolkien" none none 1).1 1).1,
         false) := by
  have h := (borrow_book_spec (add_book emptyStore "The Hobbit" "J.R.R. Tolkien" none none 1).1
      1).2.2 ⟨1, "The Hobbit", "J.R.R. Tolkien", none, none, 1⟩ (by decide) (by decide)
  exact ⟨h.1, h.2.2⟩

/-- C6: `return(id)` returns false iff no row with that id exists; otherwise
it sets that row's available flag to 1 and returns true, with no check on the
current state of the flag. -/
theorem return_book_spec (s : Store) (id : Nat) :
    ((return_book s id).2 = false ↔ get_book_by_id s id = none) ∧
    (get_book_by_id s id = none → (return_book s id).1 = s) ∧
    (∀ b, get_book_by_id s id = some b →
      (return_book s id).2 = true ∧
      get_book_by_id (return_book s id).1 id = some { b with available := 1 }) := by
  refine ⟨?_, ?_, fun b hb => ?_⟩
  · show (s.rows.any (fun b => b.id == id)) = false ↔ get_book_by_id s id = none
    exact (find_none_iff_any_false (fun b => b.id == id) s.rows).symm
  · intro h
    have hany : s.rows.any (fun b => b.id == id) = false :=
      (find_none_iff_any_false _ _).mp h
    cases s with
    | mk rows nextId =>
      simp only [return_book, update_availability]
      rw [map_if_id _ id _ hany]
  · refine ⟨?_, ?_⟩
    · simpa [return_book, update_availability] using find_some_any_true _ _ b hb
    · unfold return_book update_availability get_book_by_id
      rw [find_map_setfields s.rows id (fun b => { b with available := 1 }) (fun _ => rfl)]
      unfold get_book_by_id at hb
      rw [hb]
      rfl

/-- C6 witness: returning a borrowed book succeeds and flips the flag; the
already-available case also succeeds. -/
theorem return_book_spec_witness :
    (return_book (add_book emptyStore "The Hobbit" "J.R.R. Tolkien" none none 0).1 1).2
      = true ∧
    get_book_by_id
        (return_book (add_book emptyStore "The Hobbit" "J.R.R. Tolkien" none none 0).1 1).1 1
      = some ⟨1, "The Hobbit", "J.R.R. Tolkien", none, none, 1⟩ := by
  have h := (return_book_spec (add_book emptyStore "The Hobbit" "J.R.R. Tolkien" none none 0).1
      1).2.2 ⟨1, "The Hobbit", "J.R.R. Tolkien", none, none, 0⟩ (by decide)
  exact ⟨h.1, h.2⟩

theorem getD_map_lt (f : Book → Book) (l : List Book) (i : Nat) (d : Book)
    (h : i < l.length) : (l.map f).getD i d = f (l.getD i d) := by
  induction l generalizing i with
  | nil => exact absurd h (by simp)
  | cons b t ih =>
    cases i with
    | zero => rfl
    | succ n =>
      rw [List.map_cons, List.getD_cons_succ, List.getD_cons_succ]
      exact ih n (Nat.lt_of_succ_lt_succ h)

theorem getD_ge_default (l : List Book) (i : Nat) (d : Book) (h : l.length ≤ i) :
    l.getD i d = d := by
  induction l generalizing i with
  | nil => cases i <;> rfl
  | cons b t ih =>
    cases i with
    | zero => exact absurd h (by simp)
    | succ n =>
      rw [List.getD_cons_succ]
      exact ih n (Nat.le_of_succ_le_succ h)

theorem find_none_of_all (p : Book → Bool) (l : List Book)
    (h : ∀ b ∈ l, p b = false) : l.find? p = none := by
  induction l with
  | nil => rfl
  | cons b t ih =>
    simp only [List.find?, h b (List.mem_cons_self b t)]
    exact ih fun x hx => h x (List.mem_cons_of_mem b hx)

theorem find_append_left_none (p : Book → Bool) (l₁ l₂ : List Book)
    (h : l₁.find? p = none) : (l₁ ++ l₂).find? p = l₂.find? p := by
  induction l₁ with
  | nil => rfl
  | cons b t ih =>
    cases hb : p b
    · rw [List.cons_append]
      simp only [List.find?, hb]
      apply ih
      simpa [List.find?, hb] using h
    · exfalso
      simp [List.find?, hb] at h

/-- C2: `update(id, ...)` with zero fields supplied mutates nothing and
returns false; with at least one field supplied it returns true, whether or
not a row with that id exists. -/
theorem update_book_return_spec (s : Store) (id : Nat) (t a g d : Option String)
    (av : Option Int) :
    update_book s id none none none none none = (s, false) ∧
    ((t.isSome || a.isSome || g.isSome || d.isSome || av.isSome) = true →
      (update_book s id t a g d av).2 = true) := by
  constructor
  · rfl
  · intro h
    unfold update_book
    rw [if_pos h]

/-- C2 witness: updating only the title of a nonexistent id still returns
true, and the zero-field update on the empty store returns false. -/
theorem update_book_return_spec_witness :
    update_book emptyStore 5 none none none none none = (emptyStore, false) ∧
    (update_book emptyStore 5 (some "X") none none none none).2 = true :=
  ⟨(update_book_return_spec emptyStore 5 (some "X") none none none none).1,
   (update_book_return_spec emptyStore 5 (some "X") none none none none).2 rfl⟩

/-- C8: a book created with given title, author, genre, description and
availability, fetched immediately by the returned id, has exactly those field
values (and the returned fresh id). -/
theorem add_book_roundtrip (s : Store) (t a : String) (g d : Option String) (av : Int)
    (h : ∀ b ∈ s.rows, b.id ≠ s.nextId) :
    get_book_by_id (add_book s t a g d av).1 (add_book s t a g d av).2
      = some ⟨(add_book s t a g d av).2, t, a, g, d, av⟩ := by
  have h1 : s.rows.find? (fun b => b.id == s.nextId) = none :=
    find_none_of_all _ _ (fun b hb => beq_eq_false_iff_ne.mpr (h b hb))
  show (s.rows ++ [(⟨s.nextId, t, a, g, d, av⟩ : Book)]).find?
      (fun b => b.id == s.nextId)
    = some (⟨s.nextId, t, a, g, d, av⟩ : Book)
  rw [find_append_left_none _ _ _ h1]
  simp [List.find?]

/-- C8 witness: round-trip on the empty store with all fields supplied. -/
theorem add_book_roundtrip_witness :
    get_book_by_id
        (add_book emptyStore "The Hobbit" "J.R.R. Tolkien" (some "Fantasy")
          (some "An epic tale") 1).1
        (add_book emptyStore "The Hobbit" "J.R.R. Tolkien" (some "Fantasy")
          (some "An epic tale") 1).2
      = some ⟨(add_book emptyStore "The Hobbit" "J.R.R. Tolkien" (some "Fantasy")
          (some "An epic tale") 1).2,
          "The Hobbit", "J.R.R. Tolkien", some "Fantasy", some "An epic tale", 1⟩ :=
  add_book_roundtrip emptyStore "The Hobbit" "J.R.R. Tolkien" (some "Fantasy")
    (some "An epic tale") 1 (by decide)

/-- C9: `update(id, ...)` is a frame-respecting partial update: the table
keeps its rows (same length, same positions), a row whose id differs from the
target is entirely unchanged, and in the row with the target id each supplied
field takes the supplied value while each unsupplied field keeps its previous
value. -/
theorem update_book_frame (s : Store) (id : Nat) (t a g d : Option String)
    (av : Option Int) (i : Nat) (hi : i < s.rows.length) :
    (update_book s id t a g d av).1.rows.length = s.rows.length ∧
    ((rowAt s i).id ≠ id →
      rowAt (update_book s id t a g d av).1 i = rowAt s i) ∧
    ((rowAt s i).id = id →
      (rowAt (update_book s id t a g d av).1 i).id = (rowAt s i).id ∧
      (rowAt (update_book s id t a g d av).1 i).title = t.getD (rowAt s i).title ∧
      (rowAt (update_book s id t a g d av).1 i).author = a.getD (rowAt s i).author ∧
      (rowAt (update_book s id t a g d av).1 i).genre
        = (match g with | some x => some x | none => (rowAt s i).genre) ∧
      (rowAt (update_book s id t a g d av).1 i).descr
        = (match d with | some x => some x | none => (rowAt s i).descr) ∧
      (rowAt (update_book s id t a g d av).1 i).available
        = av.getD (rowAt s i).available) := by
  by_cases hc : (t.isSome || a.isSome || g.isSome || d.isSome || av.isSome) = true
  · have hrows : (update_book s id t a g d av).1.rows
        = s.rows.map (applyFields id t a g d av) := by
      unfold update_book
      rw [if_pos hc]
    have hrow : rowAt (update_book s id t a g d av).1 i
        = applyFields id t a g d av (rowAt s i) := by
      unfold rowAt
      rw [hrows]
      exact getD_map_lt _ _ _ _ hi
    refine ⟨by rw [hrows, List.length_map], fun hne => ?_, fun heq => ?_⟩
    · rw [hrow]
      unfold applyFields
      rw [if_neg]
      rw [beq_eq_false_iff_ne.mpr hne]
      exact Bool.false_ne_true
    · rw [hrow]
      unfold applyFields
      rw [if_pos (beq_iff_eq.mpr heq)]
      exact ⟨rfl, rfl, rfl, rfl, rfl, rfl⟩
  · have hupd : update_book s id t a g d av = (s, false) := by
      unfold update_book
      rw [if_neg hc]
    simp only [Bool.or_eq_true, not_or] at hc
    obtain ⟨⟨⟨⟨ht, ha⟩, hg⟩, hd⟩, hav⟩ := hc
    rw [Option.not_isSome_iff_eq_none] at ht ha hg hd hav
    subst ht; subst ha; subst hg; subst hd; subst hav
    rw [hupd]
    exact ⟨rfl, fun _ => rfl, fun _ => ⟨rfl, rfl, rfl, rfl, rfl, rfl⟩⟩

/-- C9 witness: updating only the author of book 1 in a two-book store keeps
the other book, the length, and book 1's unsupplied fields. -/
theorem update_book_frame_witness :
    (update_book
        (add_book (add_book emptyStore "A" "B" none none 1).1 "C" "D" none none 1).1
        1 none (some "E") none none none).1.rows.length
      = (add_book (add_book emptyStore "A" "B" none none 1).1 "C" "D" none none 1).1.rows.length ∧
    rowAt (update_book
        (add_book (add_book emptyStore "A" "B" none none 1).1 "C" "D" none none 1).1
        1 none (some "E") none none none).1 1
      = rowAt (add_book (add_book emptyStore "A" "B" none none 1).1 "C" "D" none none 1).1 1 ∧
    (rowAt (update_book
        (add_book (add_book emptyStore "A" "B" none none 1).1 "C" "D" none none 1).1
        1 none (some "E") none none none).1 0).title
      = (rowAt (add_book (add_book emptyStore "A" "B" none none 1).1 "C" "D" none none 1).1 0).title := by
  have h0 := update_book_frame
    (add_book (add_book emptyStore "A" "B" none none 1).1 "C" "D" none none 1).1
    1 none (some "E") none none none 0 (by decide)
  have h1 := update_book_frame
    (add_book (add_book emptyStore "A" "B" none none 1).1 "C" "D" none none 1).1
    1 none (some "E") none none none 1 (by decide)
  exact ⟨h0.1, h1.2.1 (by decide), (h0.2.2 (by decide)).2.1.trans (by decide)⟩

theorem applyFields_genre_none (id : Nat) (t a g d : Option String) (av : Option Int)
    (b : Book) (h : (applyFields id t a g d av b).genre = none) : b.genre = none := by
  unfold applyFields at h
  by_cases hid : (b.id == id) = true
  · rw [if_pos hid] at h
    cases hg : g with
    | none => rw [hg] at h; exact h
    | some x => rw [hg] at h; exact Option.noConfusion h
  · rw [if_neg hid] at h
    exact h

theorem applyFields_descr_none (id : Nat) (t a g d : Option String) (av : Option Int)
    (b : Book) (h : (applyFields id t a g d av b).descr = none) : b.descr = none := by
  unfold applyFields at h
  by_cases hid : (b.id == id) = true
  · rw [if_pos hid] at h
    cases hd : d with
    | none => rw [hd] at h; exact h
    | some x => rw [hd] at h; exact Option.noConfusion h
  · rw [if_neg hid] at h
    exact h

/-- C10: in `update_book`, a keyword argument supplied as `None` is bound to
the same value as an omitted argument, so the two calls are identical in
return value and resulting state for every field; consequently a genre or
description that is present can never be reset to absent by a partial
update. -/
theorem update_book_call_none_spec (s : Store) (id : Nat)
    (t a g d : Option (Option String)) (av : Option (Option Int)) :
    update_book_call s id (some none) a g d av = update_book_call s id none a g d av ∧
    update_book_call s id t (some none) g d av = update_book_call s id t none g d av ∧
    update_book_call s id t a (some none) d av = update_book_call s id t a none d av ∧
    update_book_call s id t a g (some none) av = update_book_call s id t a g none av ∧
    update_book_call s id t a g d (some none) = update_book_call s id t a g d none ∧
    (∀ i, (rowAt (update_book_call s id t a g d av).1 i).genre = none →
      (rowAt s i).genre = none) ∧
    (∀ i, (rowAt (update_book_call s id t a g d av).1 i).descr = none →
      (rowAt s i).descr = none) := by
  have hsplit : ∀ i, i < s.rows.length ∨ s.rows.length ≤ i := fun i => Nat.lt_or_ge i _
  have hrow : ∀ i, i < s.rows.length →
      ((pyBind t).isSome || (pyBind a).isSome || (pyBind g).isSome ||
        (pyBind d).isSome || (pyBind av).isSome) = true →
      rowAt (update_book_call s id t a g d av).1 i
        = applyFields id (pyBind t) (pyBind a) (pyBind g) (pyBind d) (pyBind av)
            (rowAt s i) := by
    intro i hi hc
    unfold update_book_call update_book rowAt
    rw [if_pos hc]
    exact getD_map_lt _ _ _ _ hi
  have hdeflt : ∀ i, s.rows.length ≤ i →
      ((pyBind t).isSome || (pyBind a).isSome || (pyBind g).isSome ||
        (pyBind d).isSome || (pyBind av).isSome) = true →
      rowAt (update_book_call s id t a g d av).1 i = default := by
    intro i hi hc
    unfold update_book_call update_book rowAt
    rw [if_pos hc]
    exact getD_ge_default _ _ _ (by rw [List.length_map]; exact hi)
  refine ⟨rfl, rfl, rfl, rfl, rfl, fun i => ?_, fun i => ?_⟩
  · by_cases hc : ((pyBind t).isSome || (pyBind a).isSome || (pyBind g).isSome ||
        (pyBind d).isSome || (pyBind av).isSome) = true
    · rcases hsplit i with hi | hi
      · rw [hrow i hi hc]
        exact applyFields_genre_none _ _ _ _ _ _ _
      · rw [hdeflt i hi hc,
          show rowAt s i = default from getD_ge_default s.rows i default hi]
        exact fun hx => hx
    · have hid : update_book_call s id t a g d av = (s, false) := by
        unfold update_book_call update_book
        rw [if_neg hc]
      rw [hid]
      exact fun hx => hx
  · by_cases hc : ((pyBind t).isSome || (pyBind a).isSome || (pyBind g).isSome ||
        (pyBind d).isSome || (pyBind av).isSome) = true
    · rcases hsplit i with hi | hi
      · rw [hrow i hi hc]
        exact applyFields_descr_none _ _ _ _ _ _ _
      · rw [hdeflt i hi hc,
          show rowAt s i = default from getD_ge_default s.rows i default hi]
        exact fun hx => hx
    · have hid : update_book_call s id t a g d av = (s, false) := by
        unfold update_book_call update_book
        rw [if_neg hc]
      rw [hid]
      exact fun hx => hx

/-- C10 witness: supplying `available=None` alongside a title is the same
call as omitting it, and a present genre survives a title-only update. -/
theorem update_book_call_none_spec_witness :
    update_book_call (add_book emptyStore "A" "B" (some "G") none 1).1 1
        (some (some "T2")) none none none (some none)
      = update_book_call (add_book emptyStore "A" "B" (some "G") none 1).1 1
        (some (some "T2")) none none none none ∧
    ((rowAt (update_book_call (add_book emptyStore "A" "B" (some "G") none 1).1 1
        (some (some "T2")) none none none none).1 0).genre = none →
      (rowAt (add_book emptyStore "A" "B" (some "G") none 1).1 0).genre = none) := by
  have h := update_book_call_none_spec (add_book emptyStore "A" "B" (some "G") none 1).1 1
    (some (some "T2")) none none none none
  exact ⟨h.2.2.2.2.1, h.2.2.2.2.2.1 0⟩

/-- C7: `delete(id)` returns true iff a row with that id was present, that row
is removed (a subsequent `getById(id)` returns absence), and a second
`delete(id)` returns false. -/
theorem delete_book_spec (s : Store) (id : Nat) :
    ((delete_book s id).2 = true ↔ get_book_by_id s id ≠ none) ∧
    get_book_by_id (delete_book s id).1 id = none ∧
    (delete_book (delete_book s id).1 id).2 = false := by
  refine ⟨?_, ?_, ?_⟩
  · simp only [delete_book]
    rw [← Bool.not_eq_false, not_iff_not]
    exact (find_none_iff_any_false (fun b => b.id == id) s.rows).symm
  · exact find_filter_not _ _
  · exact any_filter_not _ _

/-- C5: the spec says creating a book by supplying only `title` and `author`
succeeds with `available` true and `genre`/`description` absent, and the
docstring of `add_book` calls `genre` and `description` optional; but the
signature gives them no default values, so the call raises `TypeError` and no
record is created. -/
theorem add_book_title_author_only_fails :
    add_book_call emptyStore (some "The Hobbit") (some "J.R.R. Tolkien") none none none
      = none ∧
    add_book_call emptyStore (some "The Hobbit") (some "J.R.R. Tolkien")
        (some none) (some none) none
      = some (add_book emptyStore "The Hobbit" "J.R.R. Tolkien" none none 1) :=
  ⟨rfl, rfl⟩

/-! ### The availability invariant (C3) -/

theorem availInv_mem (s : Store) :
    availInv s = true ↔ ∀ b ∈ s.rows, isFlag b.available = true := by
  simp [availInv, List.all_eq_true]

theorem applyOp_availInv (s : Store) (op : Op) (hs : availInv s = true)
    (hop : validOp op = true) : availInv (applyOp s op) = true := by
  rw [availInv_mem] at hs ⊢
  cases op with
  | add t a g d av =>
    intro b hb
    rcases List.mem_append.mp hb with h | h
    · exact hs b h
    · rw [List.mem_singleton.mp h]
      exact hop
  | upd i t a g d av =>
    intro b hb
    by_cases hc : (t.isSome || a.isSome || g.isSome || d.isSome || av.isSome) = true
    · have hrows : (applyOp s (Op.upd i t a g d av)).rows
          = s.rows.map (applyFields i t a g d av) := by
        show (update_book s i t a g d av).1.rows = _
        unfold update_book
        rw [if_pos hc]
      rw [hrows] at hb
      rcases List.mem_map.mp hb with ⟨c, hcmem, hceq⟩
      rw [← hceq]
      unfold applyFields
      by_cases hid : (c.id == i) = true
      · rw [if_pos hid]
        cases av with
        | none => exact hs c hcmem
        | some v => exact hop
      · rw [if_neg hid]
        exact hs c hcmem
    · have : applyOp s (Op.upd i t a g d av) = s := by
        show (update_book s i t a g d av).1 = s
        unfold update_book
        rw [if_neg hc]
      rw [this] at hb
      exact hs b hb
  | setAv i av =>
    intro b hb
    rcases List.mem_map.mp hb with ⟨c, hcmem, hceq⟩
    rw [← hceq]
    by_cases hid : (c.id == i) = true
    · rw [if_pos hid]
      exact hop
    · rw [if_neg hid]
      exact hs c hcmem
  | bor i =>
    cases hq : get_book_by_id s i with
    | none =>
      have : applyOp s (Op.bor i) = s := by
        show (borrow_book s i).1 = s
        unfold borrow_book
        rw [hq]
      rw [this]
      exact hs
    | some c =>
      by_cases h0 : (c.available == 0) = true
      · have : applyOp s (Op.bor i) = s := by
          show (borrow_book s i).1 = s
          unfold borrow_book
          rw [hq]
          show (if (c.available == 0) = true then (s, false)
            else update_availability s i 0).1 = s
          rw [if_pos h0]
        rw [this]
        exact hs
      · have : applyOp s (Op.bor i) = (update_availability s i 0).1 := by
          show (borrow_book s i).1 = _
          unfold borrow_book
          rw [hq]
          show (if (c.available == 0) = true then (s, false)
            else update_availability s i 0).1 = _
          rw [if_neg h0]
        rw [this]
        intro b hb
        rcases List.mem_map.mp hb with ⟨x, hxmem, hxeq⟩
        rw [← hxeq]
        by_cases hid : (x.id == i) = true
        · rw [if_pos hid]
          rfl
        · rw [if_neg hid]
          exact hs x hxmem
  | ret i =>
    intro b hb
    rcases List.mem_map.mp hb with ⟨x, hxmem, hxeq⟩
    rw [← hxeq]
    by_cases hid : (x.id == i) = true
    · rw [if_pos hid]
      rfl
    · rw [if_neg hid]
      exact hs x hxmem
  | del i =>
    intro b hb
    exact hs b (List.mem_filter.mp hb).1

theorem run_availInv (ops : List Op) (s : Store) (hs : availInv s = true)
    (hops : ∀ op ∈ ops, validOp op = true) : availInv (run s ops) = true := by
  induction ops generalizing s with
  | nil => exact hs
  | cons op rest ih =>
    exact ih (applyOp s op)
      (applyOp_availInv s op hs (hops op (List.mem_cons_self op rest)))
      (fun o ho => hops o (List.mem_cons_of_mem op ho))

/-- C3: in every store reachable from the empty store by any sequence of
create, update, set-availability, borrow, return and delete operations whose
availability arguments are boolean flags (0 or 1, the type the spec gives
them), every row's `available` field is exactly 0 or exactly 1. -/
theorem avail_two_states (ops : List Op) (h : ∀ op ∈ ops, validOp op = true) :
    ∀ b ∈ (run emptyStore ops).rows, b.available = 0 ∨ b.available = 1 := by
  have hinv := run_availInv ops emptyStore rfl h
  rw [availInv_mem] at hinv
  intro b hb
  have hf := hinv b hb
  unfold isFlag at hf
  rw [Bool.or_eq_true] at hf
  rcases hf with h0 | h1
  · exact Or.inl (beq_iff_eq.mp h0)
  · exact Or.inr (beq_iff_eq.mp h1)

/-- C3 witness: a concrete run of create then borrow leaves the single row
with availability 0. -/
theorem avail_two_states_witness :
    (⟨1, "The Hobbit", "J.R.R. Tolkien", none, none, 0⟩ : Book).available = 0 ∨
    (⟨1, "The Hobbit", "J.R.R. Tolkien", none, none, 0⟩ : Book).available = 1 :=
  avail_two_states [Op.add "The Hobbit" "J.R.R. Tolkien" none none 1, Op.bor 1]
    (by decide) ⟨1, "The Hobbit", "J.R.R. Tolkien", none, none, 0⟩ (by decide)

/-! ### Search as substring matching (C4) -/

theorem mem_allSuffixes (s l : List Char) :
    l ∈ allSuffixes s ↔ ∃ k, l = s.drop k := by
  induction s with
  | nil =>
    constructor
    · intro h
      exact ⟨0, List.mem_singleton.mp h⟩
    · rintro ⟨k, rfl⟩
      simp [allSuffixes]
  | cons c cs ih =>
    constructor
    · intro h
      rcases List.mem_cons.mp h with h | h
      · exact ⟨0, h⟩
      · rcases ih.mp h with ⟨k, rfl⟩
        exact ⟨k + 1, rfl⟩
    · rintro ⟨k, rfl⟩
      cases k with
      | zero => exact List.mem_cons_self _ _
      | succ n => exact List.mem_cons_of_mem _ (ih.mpr ⟨n, rfl⟩)

theorem likeMatch_pct (ps : List Char) (s : List Char) :
    likeMatch ('%' :: ps) s = true ↔ ∃ k, likeMatch ps (s.drop k) = true := by
  show (allSuffixes s).any (likeMatch ps) = true ↔ _
  rw [List.any_eq_true]
  constructor
  · rintro ⟨l, hl, hm⟩
    rcases (mem_allSuffixes s l).mp hl with ⟨k, rfl⟩
    exact ⟨k, hm⟩
  · rintro ⟨k, hm⟩
    exact ⟨s.drop k, (mem_allSuffixes s _).mpr ⟨k, rfl⟩, hm⟩

theorem likeMatch_pct_nil (s : List Char) : likeMatch ['%'] s = true := by
  rw [likeMatch_pct]
  exact ⟨s.length, by rw [List.drop_length]; rfl⟩

theorem likeMatch_nowild_pct (p : List Char) (hp : noWild p = true) (s : List Char) :
    likeMatch (p ++ ['%']) s = true ↔ ciPrefix p s = true := by
  induction p generalizing s with
  | nil =>
    rw [List.nil_append]
    exact ⟨fun _ => rfl, fun _ => likeMatch_pct_nil s⟩
  | cons x ps ih =>
    have hx : (!(x == '%') && !(x == '_')) = true ∧ noWild ps = true := by
      rw [noWild] at hp
      rw [List.all_cons, Bool.and_eq_true] at hp
      exact hp
    have hxp : ¬(x = '%') := by
      intro heq
      rw [heq] at hx
      exact absurd hx.1 (by decide)
    have hxu : ¬(x = '_') := by
      intro heq
      rw [heq] at hx
      exact absurd hx.1 (by decide)
    rw [List.cons_append]
    cases s with
    | nil =>
      show (if x = '%' then (allSuffixes []).any (likeMatch (ps ++ ['%'])) else false)
          = true ↔ ciPrefix (x :: ps) [] = true
      rw [if_neg hxp]
      exact ⟨fun hcon => Bool.noConfusion hcon, fun hcon => Bool.noConfusion hcon⟩
    | cons c cs =>
      show (if x = '%' then (allSuffixes (c :: cs)).any (likeMatch (ps ++ ['%']))
          else (if x = '_' then true else lowerChar x == lowerChar c)
            && likeMatch (ps ++ ['%']) cs) = true ↔ ciPrefix (x :: ps) (c :: cs) = true
      rw [if_neg hxp, if_neg hxu]
      show ((lowerChar x == lowerChar c) && likeMatch (ps ++ ['%']) cs) = true
        ↔ ((lowerChar x == lowerChar c) && ciPrefix ps cs) = true
      rw [Bool.and_eq_true, Bool.and_eq_true]
      exact and_congr_right fun _ => ih hx.2 cs

theorem containsSub_iff (hay pat : List Char) :
    containsSub hay pat = true ↔ ∃ k, isPrefixCheck pat (hay.drop k) = true := by
  induction hay with
  | nil =>
    show pat.isEmpty = true ↔ _
    cases pat with
    | nil => exact ⟨fun _ => ⟨0, rfl⟩, fun _ => rfl⟩
    | cons p ps =>
      constructor
      · intro h
        exact Bool.noConfusion h
      · rintro ⟨k, hk⟩
        rw [List.drop_nil] at hk
        exact Bool.noConfusion hk
  | cons h t ih =>
    show (isPrefixCheck pat (h :: t) || containsSub t pat) = true ↔ _
    rw [Bool.or_eq_true, ih]
    constructor
    · rintro (hp | ⟨k, hk⟩)
      · exact ⟨0, hp⟩
      · exact ⟨k + 1, hk⟩
    · rintro ⟨k, hk⟩
      cases k with
      | zero => exact Or.inl hk
      | succ n => exact Or.inr ⟨n, hk⟩

theorem ciPrefix_eq_check (p s : List Char) :
    ciPrefix p s = isPrefixCheck (p.map lowerChar) (s.map lowerChar) := by
  induction p generalizing s with
  | nil => rfl
  | cons x ps ih =>
    cases s with
    | nil => rfl
    | cons c cs =>
      show ((lowerChar x == lowerChar c) && ciPrefix ps cs)
        = isPrefixCheck ((x :: ps).map lowerChar) ((c :: cs).map lowerChar)
      rw [ih cs]
      rfl

theorem likeMatch_eq_specMatch (term field : String) (h : noWild term.data = true) :
    likeMatch (likePattern term) field.data = specMatch term field := by
  apply Bool.eq_iff_iff.mpr
  rw [likePattern, specMatch, toLowerList, toLowerList]
  rw [likeMatch_pct, containsSub_iff]
  constructor
  · rintro ⟨k, hk⟩
    refine ⟨k, ?_⟩
    rw [← List.map_drop]
    rw [likeMatch_nowild_pct term.data h] at hk
    rw [ciPrefix_eq_check] at hk
    exact hk
  · rintro ⟨k, hk⟩
    refine ⟨k, ?_⟩
    rw [likeMatch_nowild_pct term.data h, ciPrefix_eq_check]
    rw [← List.map_drop] at hk
    exact hk

theorem likeMatch_empty_pattern (s : List Char) :
    likeMatch (likePattern "") s = true := by
  show likeMatch ('%' :: (("" : String).data ++ ['%'])) s = true
  rw [likeMatch_pct]
  exact ⟨0, likeMatch_pct_nil s⟩

/-- C4 (amended): for every search term containing no LIKE wildcard (`%` or
`_`), `search(term)` returns exactly the records whose title or author
contains the term as a case-insensitive substring; `search("")` returns every
record. -/
theorem search_books_spec (s : Store) (term : String) (h : noWild term.data = true) :
    search_books s term
      = s.rows.filter (fun b => specMatch term b.title || specMatch term b.author) ∧
    search_books s "" = s.rows := by
  constructor
  · unfold search_books
    congr 1
    funext b
    rw [likeMatch_eq_specMatch term b.title h, likeMatch_eq_specMatch term b.author h]
  · unfold search_books
    apply List.filter_eq_self.mpr
    intro b _
    rw [likeMatch_empty_pattern, likeMatch_empty_pattern]
    rfl

/-- C4 witness: the spec's own example, searching "tolkien" against an author
"J.R.R. Tolkien", where the LIKE-based search and the case-insensitive
substring semantics agree. -/
theorem search_books_spec_witness :
    search_books (add_book emptyStore "The Hobbit" "J.R.R. Tolkien" none none 1).1 "tolkien"
      = (add_book emptyStore "The Hobbit" "J.R.R. Tolkien" none none 1).1.rows.filter
          (fun b => specMatch "tolkien" b.title || specMatch "tolkien" b.author) :=
  (search_books_spec (add_book emptyStore "The Hobbit" "J.R.R. Tolkien" none none 1).1
    "tolkien" (by decide)).1

/-- C4 counterexample: the claim quantifies over every search term, but the
term is spliced into the LIKE pattern unescaped, so a term containing the
wildcard `_` matches records of which it is not a substring: searching `"_"`
in a store whose only book is titled `"x"` returns that book. -/
theorem search_books_claim_false :
    search_books ⟨[⟨1, "x", "y", none, none, 1⟩], 2⟩ "_"
      ≠ (⟨[⟨1, "x", "y", none, none, 1⟩], 2⟩ : Store).rows.filter
          (fun b => specMatch "_" b.title || specMatch "_" b.author) := by
  decide

end LibraryDb
